import Mathlib

/-!
Shallow embedding of the DPVS prescription-registry contracts
(`DoctorRegistry.sol`, the pharmacy `PharmacyRegistry` contract and the
`PrescriptionRegistry` contract in `src/contracts/contracts/`), together
with the read-side verification flow of the pharmacy frontend
(`handleVerify` plus `ContractService.getPrescriptionDetails`).

Modelling conventions:
- addresses and `bytes32` content hashes are natural numbers, with `0`
  playing the role of `address(0)` / the all-zero hash;
- timestamps (`block.timestamp`, expiry dates) are natural numbers;
- Solidity mappings are total functions returning the default value at
  unset keys, exactly as EVM storage does; the boolean per-prescription
  `hasFulfilled` mapping is modelled by the list of addresses at which it
  holds `true` (the contract only ever writes `true` into it);
- a `require` failure is an `Except.error` carrying a constructor named
  after the revert string, and a reverted call leaves the state unchanged;
- each external call passes `msg.sender` and `block.timestamp` explicitly,
  and the registry contracts consulted by `PrescriptionRegistry` are
  passed as explicit state snapshots (they are separate contracts and can
  change between calls).
-/

namespace DPVS

/-- The `Fulfillment` struct of `PrescriptionRegistry`. -/
structure Fulfillment where
  pharmacyAddress : Nat
  pharmacyName : String
  fulfilledAt : Nat
  deriving DecidableEq, Repr

/-- The `Prescription` struct of `PrescriptionRegistry`.  The nested
`mapping(address => bool) hasFulfilled` is modelled by the list of
addresses mapped to `true`. -/
structure Prescription where
  doctor : Nat
  patient : Nat
  contentHash : Nat
  ipfsHash : String
  issuedAt : Nat
  expiryDate : Nat
  fulfillments : List Fulfillment
  hasFulfilled : List Nat
  deriving DecidableEq, Repr

/-- Default (absent) prescription: every field at its EVM zero value. -/
def emptyPrescription : Prescription :=
  { doctor := 0, patient := 0, contentHash := 0, ipfsHash := "",
    issuedAt := 0, expiryDate := 0, fulfillments := [], hasFulfilled := [] }

/-- The `Doctor` struct of `DoctorRegistry`. -/
structure Doctor where
  name : String
  licenseNumber : String
  specialization : String
  isActive : Bool
  registeredAt : Nat
  deriving DecidableEq, Repr

/-- Default (absent) doctor record. -/
def emptyDoctor : Doctor :=
  { name := "", licenseNumber := "", specialization := "",
    isActive := false, registeredAt := 0 }

/-- Storage of `DoctorRegistry`: the `doctors` mapping and the
`isVerifiedDoctor` mapping. -/
structure DoctorRegistryState where
  doctors : Nat → Doctor
  isVerifiedDoctor : Nat → Bool

/-- Freshly deployed `DoctorRegistry`. -/
def DoctorRegistryState.empty : DoctorRegistryState :=
  { doctors := fun _ => emptyDoctor, isVerifiedDoctor := fun _ => false }

/-- Revert reasons of `DoctorRegistry`. -/
inductive DoctorError
  /-- "Doctor already registered and active" -/
  | alreadyRegisteredAndActive
  deriving DecidableEq, Repr

/-- The storage update performed by a successful `registerDoctor`:
write the new `Doctor` struct and set `isVerifiedDoctor` to `true`. -/
def registerUpdate (st : DoctorRegistryState) (doctorAddress : Nat)
    (nm licenseNumber sp : String) (now : Nat) : DoctorRegistryState :=
  { doctors := fun a =>
      if a = doctorAddress then
        { name := nm, licenseNumber := licenseNumber,
          specialization := sp, isActive := true, registeredAt := now }
      else st.doctors a,
    isVerifiedDoctor := fun a =>
      if a = doctorAddress then true else st.isVerifiedDoctor a }

/-- `DoctorRegistry.registerDoctor`.  The `onlyOwner` modifier was
removed in the source, so any caller may register any address; the
caller is recorded as a parameter but, faithfully to the source, it is
never inspected. -/
def registerDoctor (caller : Nat) (now : Nat) (st : DoctorRegistryState)
    (doctorAddress : Nat) (nm licenseNumber sp : String) :
    Except DoctorError DoctorRegistryState :=
  if (st.doctors doctorAddress).isActive then
    .error .alreadyRegisteredAndActive
  else
    .ok (registerUpdate st doctorAddress nm licenseNumber sp now)

/-- Storage of the pharmacy `PharmacyRegistry` contract: the
`verifiedPharmacies` mapping from address to registered name (empty
string when not registered). -/
structure PharmacyRegistryState where
  verifiedPharmacies : Nat → String

/-- Freshly deployed pharmacy registry. -/
def PharmacyRegistryState.empty : PharmacyRegistryState :=
  { verifiedPharmacies := fun _ => "" }

/-- `PharmacyRegistry.isVerifiedPharmacy`: the stored name is nonempty. -/
def isVerifiedPharmacy (st : PharmacyRegistryState) (a : Nat) : Bool :=
  decide (0 < (st.verifiedPharmacies a).length)

/-- `PharmacyRegistry.getPharmacyName`. -/
def getPharmacyName (st : PharmacyRegistryState) (a : Nat) : String :=
  st.verifiedPharmacies a

/-- Revert reasons of `PrescriptionRegistry`, one per `require` string. -/
inductive RegistryError
  /-- "PrescriptionRegistry: Not a verified doctor" -/
  | notVerifiedDoctor
  /-- "PrescriptionRegistry: Invalid expiry date" -/
  | invalidExpiryDate
  /-- "PrescriptionRegistry: Prescription with this content hash already exists." -/
  | duplicatePrescription
  /-- "PrescriptionRegistry: Not a verified pharmacy" -/
  | notVerifiedPharmacy
  /-- "PrescriptionRegistry: Prescription does not exist" -/
  | prescriptionNotFound
  /-- "PrescriptionRegistry: Prescription expired" -/
  | prescriptionExpired
  /-- "PrescriptionRegistry: This pharmacy has already fulfilled this prescription." -/
  | alreadyFulfilled
  /-- "PrescriptionRegistry: Pharmacy name not found." -/
  | pharmacyNameNotFound
  deriving DecidableEq, Repr

/-- Storage of `PrescriptionRegistry`: the `prescriptions` mapping keyed
by content hash and the two query-index mappings. -/
structure RegistryState where
  prescriptions : Nat → Prescription
  patientPrescriptions : Nat → List Nat
  doctorPrescriptions : Nat → List Nat

/-- Freshly deployed `PrescriptionRegistry`. -/
def RegistryState.empty : RegistryState :=
  { prescriptions := fun _ => emptyPrescription,
    patientPrescriptions := fun _ => [],
    doctorPrescriptions := fun _ => [] }

/-- The storage update performed by a successful
`issuePrescription(_patient, _contentHash, _ipfsHash, _expiryDate)`:
write the new `Prescription` under `_contentHash` and push
`_contentHash` onto the patient's and the doctor's index arrays. -/
def issueUpdate (st : RegistryState) (sender patient contentHash : Nat)
    (ipfsHash : String) (now expiryDate : Nat) : RegistryState :=
  { prescriptions := fun h =>
      if h = contentHash then
        { doctor := sender, patient := patient, contentHash := contentHash,
          ipfsHash := ipfsHash, issuedAt := now, expiryDate := expiryDate,
          fulfillments := [], hasFulfilled := [] }
      else st.prescriptions h,
    patientPrescriptions := fun a =>
      if a = patient then st.patientPrescriptions a ++ [contentHash]
      else st.patientPrescriptions a,
    doctorPrescriptions := fun a =>
      if a = sender then st.doctorPrescriptions a ++ [contentHash]
      else st.doctorPrescriptions a }

/-- `PrescriptionRegistry.issuePrescription`.  The three `require`s are
checked in source order: verified doctor, strictly-future expiry date,
no existing prescription under `_contentHash` (existence is
`prescriptions[_contentHash].doctor != address(0)`).  On success it
returns the updated storage and the returned id, which is
`_contentHash`. -/
def issuePrescription (doctorReg : DoctorRegistryState) (now sender : Nat)
    (st : RegistryState) (patient contentHash : Nat) (ipfsHash : String)
    (expiryDate : Nat) : Except RegistryError (RegistryState × Nat) :=
  if doctorReg.isVerifiedDoctor sender then
    if now < expiryDate then
      if (st.prescriptions contentHash).doctor = 0 then
        .ok (issueUpdate st sender patient contentHash ipfsHash now expiryDate,
             contentHash)
      else .error .duplicatePrescription
    else .error .invalidExpiryDate
  else .error .notVerifiedDoctor

/-- The storage update performed by a successful
`fulfillPrescription(_prescriptionId)` by `sender`: append a
`Fulfillment` entry and mark `hasFulfilled[sender] = true`. -/
def fulfillUpdate (st : RegistryState) (prescriptionId sender : Nat)
    (pharmacyName : String) (now : Nat) : RegistryState :=
  { st with prescriptions := fun h =>
      if h = prescriptionId then
        { st.prescriptions prescriptionId with
          fulfillments := (st.prescriptions prescriptionId).fulfillments ++
            [{ pharmacyAddress := sender, pharmacyName := pharmacyName,
               fulfilledAt := now }],
          hasFulfilled := (st.prescriptions prescriptionId).hasFulfilled ++ [sender] }
      else st.prescriptions h }

/-- `PrescriptionRegistry.fulfillPrescription`.  The `require`s in
source order: caller is a verified pharmacy, the prescription exists
(`doctor != address(0)`), `block.timestamp <= expiryDate`, the caller
has not already fulfilled it, and the caller's registered name is
nonempty. -/
def fulfillPrescription (pharmacyReg : PharmacyRegistryState) (now sender : Nat)
    (st : RegistryState) (prescriptionId : Nat) :
    Except RegistryError RegistryState :=
  if isVerifiedPharmacy pharmacyReg sender then
    if (st.prescriptions prescriptionId).doctor ≠ 0 then
      if now ≤ (st.prescriptions prescriptionId).expiryDate then
        if (st.prescriptions prescriptionId).hasFulfilled.contains sender then
          .error .alreadyFulfilled
        else
          if 0 < (getPharmacyName pharmacyReg sender).length then
            .ok (fulfillUpdate st prescriptionId sender
                  (getPharmacyName pharmacyReg sender) now)
          else .error .pharmacyNameNotFound
      else .error .prescriptionExpired
    else .error .prescriptionNotFound
  else .error .notVerifiedPharmacy

/-- `PrescriptionRegistry.verifyPrescription`: a pure boolean check that
the stored content hash matches the expected one, the prescription
exists, and it is not expired. -/
def verifyPrescription (st : RegistryState) (now : Nat)
    (prescriptionId expectedContentHash : Nat) : Bool :=
  (st.prescriptions prescriptionId).contentHash == expectedContentHash &&
  (st.prescriptions prescriptionId).doctor != 0 &&
  decide (now ≤ (st.prescriptions prescriptionId).expiryDate)

/-- The tuple returned by `PrescriptionRegistry.getPrescriptionDetails`. -/
structure PrescriptionDetails where
  doctor : Nat
  patient : Nat
  contentHash : Nat
  ipfsHash : String
  issuedAt : Nat
  expiryDate : Nat
  fulfillments : List Fulfillment
  deriving DecidableEq, Repr

/-- `PrescriptionRegistry.getPrescriptionDetails`: reverts with
"Prescription does not exist" when `doctor == address(0)`, otherwise
returns the stored fields. -/
def getPrescriptionDetails (st : RegistryState) (prescriptionId : Nat) :
    Except RegistryError PrescriptionDetails :=
  if (st.prescriptions prescriptionId).doctor ≠ 0 then
    .ok { doctor := (st.prescriptions prescriptionId).doctor,
          patient := (st.prescriptions prescriptionId).patient,
          contentHash := (st.prescriptions prescriptionId).contentHash,
          ipfsHash := (st.prescriptions prescriptionId).ipfsHash,
          issuedAt := (st.prescriptions prescriptionId).issuedAt,
          expiryDate := (st.prescriptions prescriptionId).expiryDate,
          fulfillments := (st.prescriptions prescriptionId).fulfillments }
  else .error .prescriptionNotFound

/-- `PrescriptionRegistry.hasPharmacyFulfilled`: a total read of the
nested `hasFulfilled` mapping; never reverts. -/
def hasPharmacyFulfilled (st : RegistryState)
    (prescriptionId pharmacyAddress : Nat) : Bool :=
  (st.prescriptions prescriptionId).hasFulfilled.contains pharmacyAddress

/-- `PrescriptionRegistry.getPatientPrescriptionIds`. -/
def getPatientPrescriptionIds (st : RegistryState) (patientAddress : Nat) :
    List Nat :=
  st.patientPrescriptions patientAddress

/-- `PrescriptionRegistry.getDoctorPrescriptionIds`. -/
def getDoctorPrescriptionIds (st : RegistryState) (doctorAddress : Nat) :
    List Nat :=
  st.doctorPrescriptions doctorAddress

/-- Verdicts reported by the pharmacy frontend's `handleVerify`. -/
inductive Verdict
  | Valid
  | NotFound
  | ContentMismatch
  | Expired
  | UnknownReason
  deriving DecidableEq, Repr

/-- The verdict computed by the pharmacy frontend `handleVerify`
(src/unnamed/part_002) for a well-formed scanned payload: it first
fetches the record and reports not-found when the stored doctor is the
zero address (`ContractService.getPrescriptionDetails` maps the
contract's revert to an all-zero record), then calls the contract's
`verifyPrescription`; a negative answer is classified as a content-hash
mismatch when the stored hash differs from the scanned one, else as an
expiry when `expiryDate < now`, else reported as an unknown reason. -/
def handleVerifyVerdict (st : RegistryState) (now : Nat)
    (prescriptionId contentHashFromQR : Nat) : Verdict :=
  if (st.prescriptions prescriptionId).doctor = 0 then .NotFound
  else if verifyPrescription st now prescriptionId contentHashFromQR then .Valid
  else if (st.prescriptions prescriptionId).contentHash ≠ contentHashFromQR then
    .ContentMismatch
  else if (st.prescriptions prescriptionId).expiryDate < now then .Expired
  else .UnknownReason

/-- A state-mutating entry point of `PrescriptionRegistry`, with the
environment of the call (caller, timestamp, and a snapshot of the
external registry consulted). -/
inductive Op
  | issue (doctorReg : DoctorRegistryState)
      (now sender patient contentHash : Nat) (ipfsHash : String)
      (expiryDate : Nat)
  | fulfill (pharmacyReg : PharmacyRegistryState)
      (now sender prescriptionId : Nat)

/-- Apply one entry point; a reverted call leaves storage unchanged. -/
def applyOp (st : RegistryState) : Op → RegistryState
  | .issue doctorReg now sender patient contentHash ipfsHash expiryDate =>
    match issuePrescription doctorReg now sender st patient contentHash
        ipfsHash expiryDate with
    | .ok (st', _) => st'
    | .error _ => st
  | .fulfill pharmacyReg now sender prescriptionId =>
    match fulfillPrescription pharmacyReg now sender st prescriptionId with
    | .ok st' => st'
    | .error _ => st

/-- Run a sequence of entry-point calls. -/
def runOps (st : RegistryState) (ops : List Op) : RegistryState :=
  ops.foldl applyOp st

/-- One `issuePrescription` call with its environment. -/
structure IssueCall where
  doctorReg : DoctorRegistryState
  now : Nat
  sender : Nat
  patient : Nat
  contentHash : Nat
  ipfsHash : String
  expiryDate : Nat

/-- Apply one issue call; a reverted call leaves storage unchanged. -/
def applyIssue (st : RegistryState) (c : IssueCall) : RegistryState :=
  applyOp st (.issue c.doctorReg c.now c.sender c.patient c.contentHash
    c.ipfsHash c.expiryDate)

/-- Run a sequence of issue calls. -/
def runIssues (st : RegistryState) (calls : List IssueCall) : RegistryState :=
  calls.foldl applyIssue st

/-- The successful calls of an issue trace, in order of execution. -/
def issuedLog (st : RegistryState) : List IssueCall → List IssueCall
  | [] => []
  | c :: cs =>
    match issuePrescription c.doctorReg c.now c.sender st c.patient
        c.contentHash c.ipfsHash c.expiryDate with
    | .ok (st', _) => c :: issuedLog st' cs
    | .error _ => issuedLog st cs

/-! ### Basic lemmas about the embedded operations -/

theorem issueUpdate_prescriptions (st : RegistryState)
    (sender patient contentHash : Nat) (ipfsHash : String)
    (now expiryDate : Nat) (h : Nat) :
    (issueUpdate st sender patient contentHash ipfsHash now expiryDate).prescriptions h =
      if h = contentHash then
        { doctor := sender, patient := patient, contentHash := contentHash,
          ipfsHash := ipfsHash, issuedAt := now, expiryDate := expiryDate,
          fulfillments := [], hasFulfilled := [] }
      else st.prescriptions h := rfl

theorem fulfillUpdate_prescriptions (st : RegistryState)
    (prescriptionId sender : Nat) (pharmacyName : String) (now : Nat) (h : Nat) :
    (fulfillUpdate st prescriptionId sender pharmacyName now).prescriptions h =
      if h = prescriptionId then
        { st.prescriptions prescriptionId with
          fulfillments := (st.prescriptions prescriptionId).fulfillments ++
            [{ pharmacyAddress := sender, pharmacyName := pharmacyName,
               fulfilledAt := now }],
          hasFulfilled := (st.prescriptions prescriptionId).hasFulfilled ++ [sender] }
      else st.prescriptions h := rfl

/-- A successful `issuePrescription` forces all three checks to pass and
fully determines the output. -/
theorem issuePrescription_ok {doctorReg : DoctorRegistryState}
    {now sender : Nat} {st : RegistryState} {patient contentHash : Nat}
    {ipfsHash : String} {expiryDate : Nat}
    {out : RegistryState × Nat}
    (h : issuePrescription doctorReg now sender st patient contentHash
      ipfsHash expiryDate = .ok out) :
    doctorReg.isVerifiedDoctor sender = true ∧ now < expiryDate ∧
      (st.prescriptions contentHash).doctor = 0 ∧
      out = (issueUpdate st sender patient contentHash ipfsHash now expiryDate,
             contentHash) := by
  unfold issuePrescription at h
  split_ifs at h with h1 h2 h3
  exact ⟨h1, h2, h3, (Except.ok.inj h).symm⟩

/-- A successful `fulfillPrescription` forces all checks to pass and
fully determines the output. -/
theorem fulfillPrescription_ok {pharmacyReg : PharmacyRegistryState}
    {now sender : Nat} {st : RegistryState} {prescriptionId : Nat}
    {st' : RegistryState}
    (h : fulfillPrescription pharmacyReg now sender st prescriptionId = .ok st') :
    isVerifiedPharmacy pharmacyReg sender = true ∧
      (st.prescriptions prescriptionId).doctor ≠ 0 ∧
      now ≤ (st.prescriptions prescriptionId).expiryDate ∧
      (st.prescriptions prescriptionId).hasFulfilled.contains sender = false ∧
      st' = fulfillUpdate st prescriptionId sender
        (getPharmacyName pharmacyReg sender) now := by
  unfold fulfillPrescription at h
  split_ifs at h with h1 h2 h3 h4 h5 <;>
    first
      | exact Except.noConfusion h
      | exact ⟨h1, h2, h3, Bool.not_eq_true _ ▸ h4, (Except.ok.inj h).symm⟩

/-- A verified pharmacy has a nonempty registered name. -/
theorem isVerifiedPharmacy_name {pharmacyReg : PharmacyRegistryState} {a : Nat}
    (h : isVerifiedPharmacy pharmacyReg a = true) :
    0 < (getPharmacyName pharmacyReg a).length :=
  of_decide_eq_true h

/-! ### Concrete fixtures used by the witness theorems -/

/-- A doctor registry in which address `1` is a verified doctor. -/
def sampleDoctorReg : DoctorRegistryState :=
  { doctors := fun a =>
      if a = 1 then
        { name := "Dr. A", licenseNumber := "L-1", specialization := "GP",
          isActive := true, registeredAt := 0 }
      else emptyDoctor,
    isVerifiedDoctor := fun a => a == 1 }

/-- A pharmacy registry in which addresses `2` and `3` are registered. -/
def samplePharmacyReg : PharmacyRegistryState :=
  { verifiedPharmacies := fun a =>
      if a = 2 then "PharmaOne" else if a = 3 then "PharmaTwo" else "" }

/-- A ledger holding one prescription: doctor `1`, patient `4`,
content hash `5`, issued at `10`, expiring at `100`. -/
def sampleState : RegistryState :=
  issueUpdate RegistryState.empty 1 4 5 "QmLoc" 10 100

/-! ### C1: read-side verification verdict -/

/-- C1: for every ledger state, claimed id `c` and recomputed
fingerprint `f`, the read-side verdict is `Valid` iff a record with id
`c` exists, its stored content hash equals `f` and `now` is at most its
expiry date; otherwise it is `NotFound` when the record is absent,
`ContentMismatch` when the stored hash differs from `f`, and `Expired`
when `now` is past the expiry date, with the checks applied in that
order. -/
theorem verify_verdict_cases (st : RegistryState) (now c f : Nat) :
    (handleVerifyVerdict st now c f = .Valid ↔
      ((st.prescriptions c).doctor ≠ 0 ∧ (st.prescriptions c).contentHash = f ∧
        now ≤ (st.prescriptions c).expiryDate))
    ∧ ((st.prescriptions c).doctor = 0 →
        handleVerifyVerdict st now c f = .NotFound)
    ∧ ((st.prescriptions c).doctor ≠ 0 →
        (st.prescriptions c).contentHash ≠ f →
        handleVerifyVerdict st now c f = .ContentMismatch)
    ∧ ((st.prescriptions c).doctor ≠ 0 →
        (st.prescriptions c).contentHash = f →
        (st.prescriptions c).expiryDate < now →
        handleVerifyVerdict st now c f = .Expired) := by
  have hv : (verifyPrescription st now c f = true) ↔
      ((st.prescriptions c).contentHash = f ∧ (st.prescriptions c).doctor ≠ 0 ∧
        now ≤ (st.prescriptions c).expiryDate) := by
    simp [verifyPrescription, and_assoc]
  by_cases hd : (st.prescriptions c).doctor = 0
  · exact ⟨by simp [handleVerifyVerdict, hd],
      fun _ => by simp [handleVerifyVerdict, hd],
      fun h _ => absurd hd h, fun h _ _ => absurd hd h⟩
  · by_cases hc : (st.prescriptions c).contentHash = f
    · by_cases he : now ≤ (st.prescriptions c).expiryDate
      · have hval : verifyPrescription st now c f = true := hv.mpr ⟨hc, hd, he⟩
        exact ⟨by simp [handleVerifyVerdict, hd, hval, hc, he],
          fun h => absurd h hd, fun _ h => absurd hc h,
          fun _ _ h => absurd he (by omega)⟩
      · have hval : verifyPrescription st now c f = false := by
          cases hb : verifyPrescription st now c f
          · rfl
          · exact absurd (hv.mp hb).2.2 he
        have hlt := Nat.lt_of_not_le he
        exact ⟨by simp [handleVerifyVerdict, hd, hval, hc, he, hlt],
          fun h => absurd h hd, fun _ h => absurd hc h,
          fun _ _ _ => by simp [handleVerifyVerdict, hd, hval, hc, hlt]⟩
    · have hval : verifyPrescription st now c f = false := by
        cases hb : verifyPrescription st now c f
        · rfl
        · exact absurd (hv.mp hb).1 hc
      exact ⟨by simp [handleVerifyVerdict, hd, hval, hc],
        fun h => absurd h hd,
        fun _ _ => by simp [handleVerifyVerdict, hd, hval, hc],
        fun _ h _ => absurd h hc⟩

/-- Witness for C1 at a concrete ledger: a matching in-date scan of the
stored record is `Valid`, and an unknown id is `NotFound`. -/
theorem verify_verdict_cases_witness :
    handleVerifyVerdict sampleState 50 5 5 = .Valid ∧
    handleVerifyVerdict sampleState 50 6 6 = .NotFound :=
  ⟨(verify_verdict_cases sampleState 50 5 5).1.mpr
      ⟨by decide, by decide, by decide⟩,
    (verify_verdict_cases sampleState 50 6 6).2.1 (by decide)⟩

/-! ### C2: duplicate issuance is rejected idempotently -/

/-- C2: with no record yet stored under fingerprint `f`, a first issue
call by an authorized doctor succeeds, creates the record under id `f`
and returns `f`; a second issue call with the same `f` (by any
authorized doctor, at any time with a valid expiry) fails with the
duplicate-record error and leaves the whole storage — the first record
and both query indexes — unchanged.  The hypothesis `sender1 ≠ 0`
reflects that `msg.sender` is never the zero address on the EVM
(record existence is encoded as `doctor != address(0)`). -/
theorem issue_duplicate_rejected
    (docReg1 docReg2 : DoctorRegistryState) (now1 now2 sender1 sender2 : Nat)
    (st : RegistryState) (patient1 patient2 f : Nat) (ipfs1 ipfs2 : String)
    (exp1 exp2 : Nat)
    (hauth1 : docReg1.isVerifiedDoctor sender1 = true)
    (hexp1 : now1 < exp1)
    (hfresh : (st.prescriptions f).doctor = 0)
    (hs1 : sender1 ≠ 0)
    (hauth2 : docReg2.isVerifiedDoctor sender2 = true)
    (hexp2 : now2 < exp2) :
    issuePrescription docReg1 now1 sender1 st patient1 f ipfs1 exp1 =
      .ok (issueUpdate st sender1 patient1 f ipfs1 now1 exp1, f)
    ∧ ((issueUpdate st sender1 patient1 f ipfs1 now1 exp1).prescriptions f).contentHash
        = f
    ∧ issuePrescription docReg2 now2 sender2
        (issueUpdate st sender1 patient1 f ipfs1 now1 exp1) patient2 f ipfs2 exp2
        = .error .duplicatePrescription
    ∧ applyIssue (issueUpdate st sender1 patient1 f ipfs1 now1 exp1)
        ⟨docReg2, now2, sender2, patient2, f, ipfs2, exp2⟩
        = issueUpdate st sender1 patient1 f ipfs1 now1 exp1 := by
  have hdup : issuePrescription docReg2 now2 sender2
      (issueUpdate st sender1 patient1 f ipfs1 now1 exp1) patient2 f ipfs2 exp2
      = .error .duplicatePrescription := by
    simp [issuePrescription, issueUpdate, hauth2, hexp2, hs1]
  refine ⟨by simp [issuePrescription, hauth1, hexp1, hfresh],
    by simp [issueUpdate], hdup, ?_⟩
  simp only [applyIssue, applyOp, hdup]

/-- Witness for C2: a concrete double issue of fingerprint `7`. -/
theorem issue_duplicate_rejected_witness :
    issuePrescription sampleDoctorReg 10 1 RegistryState.empty 4 7 "Qm1" 100 =
      .ok (issueUpdate RegistryState.empty 1 4 7 "Qm1" 10 100, 7)
    ∧ ((issueUpdate RegistryState.empty 1 4 7 "Qm1" 10 100).prescriptions 7).contentHash
        = 7
    ∧ issuePrescription sampleDoctorReg 20 1
        (issueUpdate RegistryState.empty 1 4 7 "Qm1" 10 100) 4 7 "Qm2" 200
        = .error .duplicatePrescription
    ∧ applyIssue (issueUpdate RegistryState.empty 1 4 7 "Qm1" 10 100)
        ⟨sampleDoctorReg, 20, 1, 4, 7, "Qm2", 200⟩
        = issueUpdate RegistryState.empty 1 4 7 "Qm1" 10 100 :=
  issue_duplicate_rejected sampleDoctorReg sampleDoctorReg 10 20 1 1
    RegistryState.empty 4 4 7 "Qm1" "Qm2" 100 200
    (by decide) (by decide) (by decide) (by decide) (by decide) (by decide)

/-! ### C9: doctor registration is open to any caller -/

/-- C9: for every caller and every address not currently registered as
an active doctor, `registerDoctor` succeeds (there is no owner or admin
restriction) and makes the address pass the `isVerifiedDoctor` check
that gates `issuePrescription`, so issuer authorization is obtainable
by self-registration: any subsequent issue call by that address with a
strictly-future expiry and a fresh content hash succeeds. -/
theorem register_doctor_open
    (caller now : Nat) (st : DoctorRegistryState) (a : Nat)
    (nm lic sp : String)
    (hinactive : (st.doctors a).isActive = false) :
    ∃ st', registerDoctor caller now st a nm lic sp = .ok st'
      ∧ st'.isVerifiedDoctor a = true
      ∧ ∀ (rs : RegistryState) (now2 patient f : Nat) (ipfs : String)
          (exp : Nat), now2 < exp → (rs.prescriptions f).doctor = 0 →
          issuePrescription st' now2 a rs patient f ipfs exp =
            .ok (issueUpdate rs a patient f ipfs now2 exp, f) := by
  refine ⟨registerUpdate st a nm lic sp now,
    by simp [registerDoctor, hinactive], by simp [registerUpdate], ?_⟩
  intro rs now2 patient f ipfs exp hexp hfresh
  simp [issuePrescription, registerUpdate, hexp, hfresh]

/-- Witness for C9: caller `9` registers address `6` on a fresh
registry and address `6` can then issue. -/
theorem register_doctor_open_witness :
    (DoctorRegistryState.empty.doctors 6).isActive = false ∧
    ∃ st', registerDoctor 9 0 DoctorRegistryState.empty 6 "Dr. B" "L-2" "ENT"
        = .ok st'
      ∧ st'.isVerifiedDoctor 6 = true
      ∧ ∀ (rs : RegistryState) (now2 patient f : Nat) (ipfs : String)
          (exp : Nat), now2 < exp → (rs.prescriptions f).doctor = 0 →
          issuePrescription st' now2 6 rs patient f ipfs exp =
            .ok (issueUpdate rs 6 patient f ipfs now2 exp, f) :=
  ⟨by decide,
    register_doctor_open 9 0 DoctorRegistryState.empty 6 "Dr. B" "L-2" "ENT"
      (by decide)⟩

/-! ### C10: no validation of the recipient -/

/-- C10: `issuePrescription` places no precondition on the patient
argument: an authorized doctor issuing with a strictly-future expiry
and a fresh fingerprint succeeds even with the zero address as patient,
and the record is stored with patient `0` and the id appended to
patient `0`'s query index. -/
theorem issue_zero_recipient
    (docReg : DoctorRegistryState) (now sender : Nat) (st : RegistryState)
    (f : Nat) (ipfs : String) (exp : Nat)
    (hauth : docReg.isVerifiedDoctor sender = true)
    (hexp : now < exp)
    (hfresh : (st.prescriptions f).doctor = 0) :
    issuePrescription docReg now sender st 0 f ipfs exp =
      .ok (issueUpdate st sender 0 f ipfs now exp, f)
    ∧ ((issueUpdate st sender 0 f ipfs now exp).prescriptions f).patient = 0
    ∧ (issueUpdate st sender 0 f ipfs now exp).patientPrescriptions 0 =
        st.patientPrescriptions 0 ++ [f] := by
  refine ⟨by simp [issuePrescription, hauth, hexp, hfresh], ?_, ?_⟩ <;>
    simp [issueUpdate]

/-- Witness for C10: doctor `1` issues to the zero address. -/
theorem issue_zero_recipient_witness :
    issuePrescription sampleDoctorReg 10 1 RegistryState.empty 0 7 "Qm1" 100 =
      .ok (issueUpdate RegistryState.empty 1 0 7 "Qm1" 10 100, 7)
    ∧ ((issueUpdate RegistryState.empty 1 0 7 "Qm1" 10 100).prescriptions 7).patient
        = 0
    ∧ (issueUpdate RegistryState.empty 1 0 7 "Qm1" 10 100).patientPrescriptions 0
        = RegistryState.empty.patientPrescriptions 0 ++ [7] :=
  issue_zero_recipient sampleDoctorReg 10 1 RegistryState.empty 7 "Qm1" 100
    (by decide) (by decide) (by decide)

/-! ### C4: fulfillment expiry bound is inclusive -/

/-- C4: for an existing record and an authorized pharmacy that has not
yet fulfilled it, `fulfillPrescription` succeeds when the current time
equals the expiry date exactly, and fails with the expired error when
the current time is the expiry date plus one. -/
theorem fulfill_expiry_boundary
    (pharmacyReg : PharmacyRegistryState) (sender : Nat) (st : RegistryState)
    (rid : Nat)
    (hauth : isVerifiedPharmacy pharmacyReg sender = true)
    (hexists : (st.prescriptions rid).doctor ≠ 0)
    (hnot : (st.prescriptions rid).hasFulfilled.contains sender = false) :
    fulfillPrescription pharmacyReg ((st.prescriptions rid).expiryDate) sender
        st rid =
      .ok (fulfillUpdate st rid sender (getPharmacyName pharmacyReg sender)
            ((st.prescriptions rid).expiryDate))
    ∧ fulfillPrescription pharmacyReg ((st.prescriptions rid).expiryDate + 1)
        sender st rid = .error .prescriptionExpired := by
  have hname := isVerifiedPharmacy_name hauth
  have hnot' : sender ∉ (st.prescriptions rid).hasFulfilled := by
    simpa using hnot
  constructor
  · simp [fulfillPrescription, hauth, hexists, hnot', hname]
  · simp [fulfillPrescription, hauth, hexists]

/-- Witness for C4 at the sample ledger (expiry date `100`). -/
theorem fulfill_expiry_boundary_witness :
    fulfillPrescription samplePharmacyReg
        ((sampleState.prescriptions 5).expiryDate) 2 sampleState 5 =
      .ok (fulfillUpdate sampleState 5 2 (getPharmacyName samplePharmacyReg 2)
            ((sampleState.prescriptions 5).expiryDate))
    ∧ fulfillPrescription samplePharmacyReg
        ((sampleState.prescriptions 5).expiryDate + 1) 2 sampleState 5 =
      .error .prescriptionExpired :=
  fulfill_expiry_boundary samplePharmacyReg 2 sampleState 5
    (by decide) (by decide) (by decide)

/-! ### C5: order of the not-found and authorization checks -/

/-- Counterexample to C5 as stated: an unauthorized caller (address `1`
is not a registered pharmacy in the empty pharmacy registry) fulfilling
a nonexistent prescription id `5` receives the not-a-verified-pharmacy
error, not the not-found error — the authorization precondition is
decided before record existence. -/
theorem fulfill_notfound_counterexample :
    (RegistryState.empty.prescriptions 5).doctor = 0
    ∧ fulfillPrescription PharmacyRegistryState.empty 0 1 RegistryState.empty 5
        = .error .notVerifiedPharmacy
    ∧ RegistryError.notVerifiedPharmacy ≠ RegistryError.prescriptionNotFound :=
  ⟨rfl, rfl, by decide⟩

/-- C5 amended: `fulfillPrescription` on a nonexistent record fails with
the not-found error provided the caller currently holds pharmacy
authorization; for a caller without authorization it fails with the
unauthorized error instead, whether or not the record exists — the
dispenser-authorization precondition is decided before the
record-existence precondition. -/
theorem fulfill_notfound_after_auth
    (pharmacyReg : PharmacyRegistryState) (now sender : Nat)
    (st : RegistryState) (pid : Nat) :
    (isVerifiedPharmacy pharmacyReg sender = true →
      (st.prescriptions pid).doctor = 0 →
      fulfillPrescription pharmacyReg now sender st pid =
        .error .prescriptionNotFound)
    ∧ (isVerifiedPharmacy pharmacyReg sender = false →
      fulfillPrescription pharmacyReg now sender st pid =
        .error .notVerifiedPharmacy) := by
  constructor
  · intro h1 h2
    simp [fulfillPrescription, h1, h2]
  · intro h1
    simp [fulfillPrescription, h1]

/-- Witness for the amended C5: authorized pharmacy `2` fulfilling the
unknown id `5` on an empty ledger gets the not-found error, and the
unauthorized address `7` gets the unauthorized error. -/
theorem fulfill_notfound_after_auth_witness :
    fulfillPrescription samplePharmacyReg 0 2 RegistryState.empty 5 =
      .error .prescriptionNotFound
    ∧ fulfillPrescription samplePharmacyReg 0 7 RegistryState.empty 5 =
      .error .notVerifiedPharmacy :=
  ⟨(fulfill_notfound_after_auth samplePharmacyReg 0 2 RegistryState.empty 5).1
      (by decide) (by decide),
    (fulfill_notfound_after_auth samplePharmacyReg 0 7 RegistryState.empty 5).2
      (by decide)⟩

/-! ### C3: per-party fulfillment deduplication -/

/-- C3: for an existing unexpired record and two distinct authorized
pharmacies `p` and `q`, after one successful fulfillment by `p` a
second attempt by `p` fails with the already-fulfilled error and leaves
the state (hence the fulfillment sequence) unchanged, while a
fulfillment by `q` still succeeds and appends a new entry for `q`. -/
theorem fulfill_dedup
    (pharmacyReg : PharmacyRegistryState) (now1 now2 now3 p q : Nat)
    (st : RegistryState) (rid : Nat)
    (hp : isVerifiedPharmacy pharmacyReg p = true)
    (hq : isVerifiedPharmacy pharmacyReg q = true)
    (hpq : p ≠ q)
    (hexists : (st.prescriptions rid).doctor ≠ 0)
    (hnp : (st.prescriptions rid).hasFulfilled.contains p = false)
    (hnq : (st.prescriptions rid).hasFulfilled.contains q = false)
    (h1 : now1 ≤ (st.prescriptions rid).expiryDate)
    (h2 : now2 ≤ (st.prescriptions rid).expiryDate)
    (h3 : now3 ≤ (st.prescriptions rid).expiryDate) :
    fulfillPrescription pharmacyReg now1 p st rid =
      .ok (fulfillUpdate st rid p (getPharmacyName pharmacyReg p) now1)
    ∧ ((fulfillUpdate st rid p (getPharmacyName pharmacyReg p) now1).prescriptions
        rid).fulfillments =
      (st.prescriptions rid).fulfillments ++
        [{ pharmacyAddress := p, pharmacyName := getPharmacyName pharmacyReg p,
           fulfilledAt := now1 }]
    ∧ fulfillPrescription pharmacyReg now2 p
        (fulfillUpdate st rid p (getPharmacyName pharmacyReg p) now1) rid =
      .error .alreadyFulfilled
    ∧ applyOp (fulfillUpdate st rid p (getPharmacyName pharmacyReg p) now1)
        (.fulfill pharmacyReg now2 p rid) =
      fulfillUpdate st rid p (getPharmacyName pharmacyReg p) now1
    ∧ ∃ st2, fulfillPrescription pharmacyReg now3 q
          (fulfillUpdate st rid p (getPharmacyName pharmacyReg p) now1) rid =
        .ok st2
      ∧ (st2.prescriptions rid).fulfillments =
        ((fulfillUpdate st rid p (getPharmacyName pharmacyReg p) now1).prescriptions
            rid).fulfillments ++
          [{ pharmacyAddress := q, pharmacyName := getPharmacyName pharmacyReg q,
             fulfilledAt := now3 }] := by
  have hnamep := isVerifiedPharmacy_name hp
  have hnameq := isVerifiedPharmacy_name hq
  have hnp' : p ∉ (st.prescriptions rid).hasFulfilled := by simpa using hnp
  have hnq' : q ∉ (st.prescriptions rid).hasFulfilled := by simpa using hnq
  have hqp : q ≠ p := Ne.symm hpq
  have hrec : (fulfillUpdate st rid p (getPharmacyName pharmacyReg p)
      now1).prescriptions rid =
      { st.prescriptions rid with
        fulfillments := (st.prescriptions rid).fulfillments ++
          [{ pharmacyAddress := p, pharmacyName := getPharmacyName pharmacyReg p,
             fulfilledAt := now1 }],
        hasFulfilled := (st.prescriptions rid).hasFulfilled ++ [p] } := by
    simp [fulfillUpdate]
  have hagain : fulfillPrescription pharmacyReg now2 p
      (fulfillUpdate st rid p (getPharmacyName pharmacyReg p) now1) rid =
      .error .alreadyFulfilled := by
    simp [fulfillPrescription, hrec, hp, hexists, h2]
  refine ⟨by simp [fulfillPrescription, hp, hexists, h1, hnp', hnamep],
    by rw [hrec], hagain, by simp only [applyOp, hagain], ?_⟩
  refine ⟨fulfillUpdate (fulfillUpdate st rid p (getPharmacyName pharmacyReg p)
      now1) rid q (getPharmacyName pharmacyReg q) now3, ?_, ?_⟩
  · have hcq : ((fulfillUpdate st rid p (getPharmacyName pharmacyReg p)
        now1).prescriptions rid).hasFulfilled.contains q = false := by
      rw [hrec]
      simp [hnq', hqp]
    have hcq' : q ∉ ((fulfillUpdate st rid p (getPharmacyName pharmacyReg p)
        now1).prescriptions rid).hasFulfilled := by simpa using hcq
    simp [fulfillPrescription, hrec, hq, hexists, h3, hnameq, hcq', hnq', hqp]
  · simp [fulfillUpdate]

/-- Witness for C3: pharmacies `2` and `3` against the sample ledger. -/
theorem fulfill_dedup_witness :
    fulfillPrescription samplePharmacyReg 20 2 sampleState 5 =
      .ok (fulfillUpdate sampleState 5 2 (getPharmacyName samplePharmacyReg 2) 20)
    ∧ ((fulfillUpdate sampleState 5 2 (getPharmacyName samplePharmacyReg 2)
        20).prescriptions 5).fulfillments =
      (sampleState.prescriptions 5).fulfillments ++
        [{ pharmacyAddress := 2, pharmacyName := getPharmacyName samplePharmacyReg 2,
           fulfilledAt := 20 }]
    ∧ fulfillPrescription samplePharmacyReg 30 2
        (fulfillUpdate sampleState 5 2 (getPharmacyName samplePharmacyReg 2) 20) 5 =
      .error .alreadyFulfilled
    ∧ applyOp (fulfillUpdate sampleState 5 2 (getPharmacyName samplePharmacyReg 2) 20)
        (.fulfill samplePharmacyReg 30 2 5) =
      fulfillUpdate sampleState 5 2 (getPharmacyName samplePharmacyReg 2) 20
    ∧ ∃ st2, fulfillPrescription samplePharmacyReg 40 3
          (fulfillUpdate sampleState 5 2 (getPharmacyName samplePharmacyReg 2) 20) 5 =
        .ok st2
      ∧ (st2.prescriptions 5).fulfillments =
        ((fulfillUpdate sampleState 5 2 (getPharmacyName samplePharmacyReg 2)
            20).prescriptions 5).fulfillments ++
          [{ pharmacyAddress := 3, pharmacyName := getPharmacyName samplePharmacyReg 3,
             fulfilledAt := 40 }] :=
  fulfill_dedup samplePharmacyReg 20 30 40 2 3 sampleState 5
    (by decide) (by decide) (by decide) (by decide) (by decide) (by decide)
    (by decide) (by decide) (by decide)

/-! ### Reachable-state invariants -/

/-- An issue entry point either leaves the state unchanged (revert) or,
when the duplicate check passed, performs exactly the issue update. -/
theorem applyOp_issue_cases (st : RegistryState)
    (doctorReg : DoctorRegistryState) (now sender patient f : Nat)
    (ipfs : String) (exp : Nat) :
    applyOp st (.issue doctorReg now sender patient f ipfs exp) = st ∨
    ((st.prescriptions f).doctor = 0 ∧
      applyOp st (.issue doctorReg now sender patient f ipfs exp) =
        issueUpdate st sender patient f ipfs now exp) := by
  simp only [applyOp, issuePrescription]
  split_ifs with hauth hexp hdup
  · exact Or.inr ⟨hdup, rfl⟩
  all_goals exact Or.inl rfl

/-- A fulfill entry point either leaves the state unchanged (revert)
or, for an existing record, performs exactly the fulfill update. -/
theorem applyOp_fulfill_cases (st : RegistryState)
    (pharmacyReg : PharmacyRegistryState) (now sender rid : Nat) :
    applyOp st (.fulfill pharmacyReg now sender rid) = st ∨
    ((st.prescriptions rid).doctor ≠ 0 ∧
      applyOp st (.fulfill pharmacyReg now sender rid) =
        fulfillUpdate st rid sender (getPharmacyName pharmacyReg sender) now) := by
  simp only [applyOp, fulfillPrescription]
  split_ifs with hauth hex hexp hdone hname
  case pos => exact Or.inl rfl
  case pos => exact Or.inr ⟨hex, rfl⟩
  all_goals exact Or.inl rfl

/-- Invariant: the `contentHash` field of every stored record equals
the mapping key it is stored under; preserved by every entry point. -/
theorem runOps_fingerprint_inv :
    ∀ (ops : List Op) (st : RegistryState),
      (∀ h, (st.prescriptions h).doctor ≠ 0 →
        (st.prescriptions h).contentHash = h) →
      ∀ h, ((runOps st ops).prescriptions h).doctor ≠ 0 →
        ((runOps st ops).prescriptions h).contentHash = h
  | [], _, hInv => hInv
  | op :: ops, st, hInv => by
    have hstep : ∀ h, ((applyOp st op).prescriptions h).doctor ≠ 0 →
        ((applyOp st op).prescriptions h).contentHash = h := by
      cases op with
      | issue doctorReg now sender patient f ipfs exp =>
        rcases applyOp_issue_cases st doctorReg now sender patient f ipfs exp
          with heq | ⟨_, heq⟩
        · rw [heq]; exact hInv
        · intro h
          rw [heq, issueUpdate_prescriptions]
          by_cases hf : h = f
          · simp [hf]
          · simp only [if_neg hf]
            exact hInv h
      | fulfill pharmacyReg now sender rid =>
        rcases applyOp_fulfill_cases st pharmacyReg now sender rid
          with heq | ⟨_, heq⟩
        · rw [heq]; exact hInv
        · intro h
          rw [heq, fulfillUpdate_prescriptions]
          by_cases hf : h = rid
          · simp only [if_pos hf]
            intro hd
            have := hInv rid hd
            simp [this, hf]
          · simp only [if_neg hf]
            exact hInv h
    exact runOps_fingerprint_inv ops (applyOp st op) hstep

/-- C7: in every state reachable from the empty ledger by any sequence
of issue and fulfill calls, every stored record's `contentHash`
(fingerprint) field equals the key (id) it is stored under; moreover a
successful fulfillment never changes the `contentHash` or `doctor`
field of any record, and a successful issuance never changes any
already-existing record. -/
theorem fingerprint_equals_id (ops : List Op) (h : Nat) :
    (((runOps RegistryState.empty ops).prescriptions h).doctor ≠ 0 →
      ((runOps RegistryState.empty ops).prescriptions h).contentHash = h)
    ∧ (∀ (pharmacyReg : PharmacyRegistryState) (now sender rid : Nat)
        (st st' : RegistryState),
        fulfillPrescription pharmacyReg now sender st rid = .ok st' →
        (st'.prescriptions h).contentHash = (st.prescriptions h).contentHash ∧
        (st'.prescriptions h).doctor = (st.prescriptions h).doctor)
    ∧ (∀ (doctorReg : DoctorRegistryState) (now sender patient f : Nat)
        (ipfs : String) (exp : Nat) (st st' : RegistryState) (r : Nat),
        issuePrescription doctorReg now sender st patient f ipfs exp =
          .ok (st', r) →
        (st.prescriptions h).doctor ≠ 0 →
        st'.prescriptions h = st.prescriptions h) := by
  refine ⟨?_, ?_, ?_⟩
  · exact runOps_fingerprint_inv ops RegistryState.empty
      (fun _ hd => absurd rfl hd) h
  · intro pharmacyReg now sender rid st st' hok
    obtain ⟨-, -, -, -, hst'⟩ := fulfillPrescription_ok hok
    subst hst'
    rw [fulfillUpdate_prescriptions]
    by_cases hf : h = rid
    · simp [hf]
    · simp [hf]
  · intro doctorReg now sender patient f ipfs exp st st' r hok hex
    obtain ⟨-, -, hdup, hout⟩ := issuePrescription_ok hok
    have hst' : st' = issueUpdate st sender patient f ipfs now exp :=
      congrArg Prod.fst hout
    subst hst'
    have hf : h ≠ f := by
      intro he
      rw [he] at hex
      exact hex hdup
    rw [issueUpdate_prescriptions, if_neg hf]

/-- Witness for C7: a two-call trace (issue then fulfill) of the sample
environment keeps `contentHash = id` at key `5`. -/
theorem fingerprint_equals_id_witness :
    ((runOps RegistryState.empty
        [.issue sampleDoctorReg 10 1 4 5 "QmLoc" 100,
         .fulfill samplePharmacyReg 20 2 5]).prescriptions 5).contentHash = 5 :=
  (fingerprint_equals_id
      [.issue sampleDoctorReg 10 1 4 5 "QmLoc" 100,
       .fulfill samplePharmacyReg 20 2 5] 5).1 (by decide)

/-- Invariant: a record slot whose doctor is the zero address (i.e. an
absent record) has an empty `hasFulfilled` set; preserved by every
entry point (issuance writes a fresh empty record, and fulfillment only
touches existing records). -/
theorem runOps_absent_unfulfilled :
    ∀ (ops : List Op) (st : RegistryState),
      (∀ h, (st.prescriptions h).doctor = 0 →
        (st.prescriptions h).hasFulfilled = []) →
      ∀ h, ((runOps st ops).prescriptions h).doctor = 0 →
        ((runOps st ops).prescriptions h).hasFulfilled = []
  | [], _, hInv => hInv
  | op :: ops, st, hInv => by
    have hstep : ∀ h, ((applyOp st op).prescriptions h).doctor = 0 →
        ((applyOp st op).prescriptions h).hasFulfilled = [] := by
      cases op with
      | issue doctorReg now sender patient f ipfs exp =>
        rcases applyOp_issue_cases st doctorReg now sender patient f ipfs exp
          with heq | ⟨_, heq⟩
        · rw [heq]; exact hInv
        · intro h
          rw [heq, issueUpdate_prescriptions]
          by_cases hf : h = f
          · simp [hf]
          · simp only [if_neg hf]
            exact hInv h
      | fulfill pharmacyReg now sender rid =>
        rcases applyOp_fulfill_cases st pharmacyReg now sender rid
          with heq | ⟨hex, heq⟩
        · rw [heq]; exact hInv
        · intro h
          rw [heq, fulfillUpdate_prescriptions]
          by_cases hf : h = rid
          · simp only [if_pos hf]
            intro hd
            exact absurd hd hex
          · simp only [if_neg hf]
            exact hInv h
    exact runOps_absent_unfulfilled ops (applyOp st op) hstep

/-- C8: in every reachable state, `hasPharmacyFulfilled` is a total
function that returns `false` for an absent prescription id (it never
reverts), while `getPrescriptionDetails` reverts with the not-found
error on the same absent id. -/
theorem has_fulfilled_total_vs_details (ops : List Op) (pid party : Nat)
    (habs : ((runOps RegistryState.empty ops).prescriptions pid).doctor = 0) :
    hasPharmacyFulfilled (runOps RegistryState.empty ops) pid party = false
    ∧ getPrescriptionDetails (runOps RegistryState.empty ops) pid =
        .error .prescriptionNotFound := by
  constructor
  · unfold hasPharmacyFulfilled
    rw [runOps_absent_unfulfilled ops RegistryState.empty
      (fun _ _ => rfl) pid habs]
    rfl
  · unfold getPrescriptionDetails
    simp [habs]

/-- Witness for C8: after one issue of id `5`, the unknown id `6` gives
`false` from the total read and not-found from the details read. -/
theorem has_fulfilled_total_vs_details_witness :
    hasPharmacyFulfilled
        (runOps RegistryState.empty [.issue sampleDoctorReg 10 1 4 5 "QmLoc" 100])
        6 2 = false
    ∧ getPrescriptionDetails
        (runOps RegistryState.empty [.issue sampleDoctorReg 10 1 4 5 "QmLoc" 100])
        6 = .error .prescriptionNotFound :=
  has_fulfilled_total_vs_details [.issue sampleDoctorReg 10 1 4 5 "QmLoc" 100]
    6 2 (by decide)

/-! ### Issue-trace lemmas for the query indexes -/

theorem runIssues_nil (st : RegistryState) : runIssues st [] = st := rfl

theorem runIssues_cons (st : RegistryState) (c : IssueCall)
    (cs : List IssueCall) :
    runIssues st (c :: cs) = runIssues (applyIssue st c) cs := rfl

theorem applyIssue_error {st : RegistryState} {c : IssueCall}
    {e : RegistryError}
    (h : issuePrescription c.doctorReg c.now c.sender st c.patient
      c.contentHash c.ipfsHash c.expiryDate = .error e) :
    applyIssue st c = st := by
  simp only [applyIssue, applyOp, h]

theorem applyIssue_ok {st : RegistryState} {c : IssueCall}
    {st' : RegistryState} {r : Nat}
    (h : issuePrescription c.doctorReg c.now c.sender st c.patient
      c.contentHash c.ipfsHash c.expiryDate = .ok (st', r)) :
    applyIssue st c = st' := by
  simp only [applyIssue, applyOp, h]

theorem issuedLog_cons_error {st : RegistryState} {c : IssueCall}
    {e : RegistryError}
    (h : issuePrescription c.doctorReg c.now c.sender st c.patient
      c.contentHash c.ipfsHash c.expiryDate = .error e)
    (cs : List IssueCall) :
    issuedLog st (c :: cs) = issuedLog st cs := by
  simp only [issuedLog, h]

theorem issuedLog_cons_ok {st : RegistryState} {c : IssueCall}
    {st' : RegistryState} {r : Nat}
    (h : issuePrescription c.doctorReg c.now c.sender st c.patient
      c.contentHash c.ipfsHash c.expiryDate = .ok (st', r))
    (cs : List IssueCall) :
    issuedLog st (c :: cs) = c :: issuedLog st' cs := by
  simp only [issuedLog, h]

/-- The patient index after a trace of issue calls is the old index
followed by the successfully issued ids whose patient matches, in
issuance order. -/
theorem runIssues_patient_index :
    ∀ (calls : List IssueCall) (st : RegistryState) (r : Nat),
      (runIssues st calls).patientPrescriptions r =
        st.patientPrescriptions r ++
          ((issuedLog st calls).filter (fun c => c.patient == r)).map
            (fun c => c.contentHash)
  | [], st, r => by simp [runIssues, issuedLog]
  | c :: cs, st, r => by
    cases hres : issuePrescription c.doctorReg c.now c.sender st c.patient
        c.contentHash c.ipfsHash c.expiryDate with
    | error e =>
      rw [runIssues_cons, applyIssue_error hres, issuedLog_cons_error hres cs]
      exact runIssues_patient_index cs st r
    | ok out =>
      obtain ⟨st', r'⟩ := out
      obtain ⟨-, -, -, hout⟩ := issuePrescription_ok hres
      have hst' : st' = issueUpdate st c.sender c.patient c.contentHash
          c.ipfsHash c.now c.expiryDate := congrArg Prod.fst hout
      subst hst'
      rw [runIssues_cons, applyIssue_ok hres, issuedLog_cons_ok hres cs,
        runIssues_patient_index cs _ r]
      by_cases hr : c.patient = r
      · simp [issueUpdate, List.filter_cons, hr]
      · simp [issueUpdate, List.filter_cons, hr, Ne.symm hr]
  termination_by calls => calls.length

/-- The doctor index after a trace of issue calls is the old index
followed by the successfully issued ids whose issuer matches, in
issuance order. -/
theorem runIssues_doctor_index :
    ∀ (calls : List IssueCall) (st : RegistryState) (d : Nat),
      (runIssues st calls).doctorPrescriptions d =
        st.doctorPrescriptions d ++
          ((issuedLog st calls).filter (fun c => c.sender == d)).map
            (fun c => c.contentHash)
  | [], st, d => by simp [runIssues, issuedLog]
  | c :: cs, st, d => by
    cases hres : issuePrescription c.doctorReg c.now c.sender st c.patient
        c.contentHash c.ipfsHash c.expiryDate with
    | error e =>
      rw [runIssues_cons, applyIssue_error hres, issuedLog_cons_error hres cs]
      exact runIssues_doctor_index cs st d
    | ok out =>
      obtain ⟨st', r'⟩ := out
      obtain ⟨-, -, -, hout⟩ := issuePrescription_ok hres
      have hst' : st' = issueUpdate st c.sender c.patient c.contentHash
          c.ipfsHash c.now c.expiryDate := congrArg Prod.fst hout
      subst hst'
      rw [runIssues_cons, applyIssue_ok hres, issuedLog_cons_ok hres cs,
        runIssues_doctor_index cs _ d]
      by_cases hd : c.sender = d
      · simp [issueUpdate, List.filter_cons, hd]
      · simp [issueUpdate, List.filter_cons, hd, Ne.symm hd]
  termination_by calls => calls.length

/-- An existing record is never modified by later issue calls (the
duplicate check rejects its id). -/
theorem runIssues_preserves_record :
    ∀ (calls : List IssueCall) (st : RegistryState) (h : Nat),
      (st.prescriptions h).doctor ≠ 0 →
      (runIssues st calls).prescriptions h = st.prescriptions h
  | [], _, _, _ => rfl
  | c :: cs, st, h, hx => by
    cases hres : issuePrescription c.doctorReg c.now c.sender st c.patient
        c.contentHash c.ipfsHash c.expiryDate with
    | error e =>
      rw [runIssues_cons, applyIssue_error hres]
      exact runIssues_preserves_record cs st h hx
    | ok out =>
      obtain ⟨st', r'⟩ := out
      obtain ⟨-, -, hdup, hout⟩ := issuePrescription_ok hres
      have hst' : st' = issueUpdate st c.sender c.patient c.contentHash
          c.ipfsHash c.now c.expiryDate := congrArg Prod.fst hout
      subst hst'
      have hne : h ≠ c.contentHash := by
        intro he
        rw [he] at hx
        exact hx hdup
      have hpres : (issueUpdate st c.sender c.patient c.contentHash c.ipfsHash
          c.now c.expiryDate).prescriptions h = st.prescriptions h := by
        rw [issueUpdate_prescriptions, if_neg hne]
      rw [runIssues_cons, applyIssue_ok hres,
        runIssues_preserves_record cs _ h (by rw [hpres]; exact hx), hpres]
  termination_by calls => calls.length

/-- Every entry of the success log comes from the trace. -/
theorem issuedLog_subset :
    ∀ (calls : List IssueCall) (st : RegistryState) (c : IssueCall),
      c ∈ issuedLog st calls → c ∈ calls
  | [], st, c, hc => by simp [issuedLog] at hc
  | c' :: cs, st, c, hc => by
    cases hres : issuePrescription c'.doctorReg c'.now c'.sender st c'.patient
        c'.contentHash c'.ipfsHash c'.expiryDate with
    | error e =>
      rw [issuedLog_cons_error hres] at hc
      exact List.mem_cons_of_mem _ (issuedLog_subset cs st c hc)
    | ok out =>
      obtain ⟨st', r'⟩ := out
      rw [issuedLog_cons_ok hres] at hc
      rcases List.mem_cons.mp hc with rfl | hmem
      · exact List.mem_cons_self _ _
      · exact List.mem_cons_of_mem _ (issuedLog_subset cs st' c hmem)
  termination_by calls => calls.length

/-- Each successfully issued call is faithfully recorded in the final
state: the record stored under its content hash carries its issuer and
its patient (senders are nonzero, as on the EVM). -/
theorem issuedLog_recorded :
    ∀ (calls : List IssueCall) (st : RegistryState),
      (∀ c ∈ calls, c.sender ≠ 0) →
      ∀ c ∈ issuedLog st calls,
        ((runIssues st calls).prescriptions c.contentHash).doctor = c.sender ∧
        ((runIssues st calls).prescriptions c.contentHash).patient = c.patient
  | [], st, _, c, hc => by simp [issuedLog] at hc
  | c' :: cs, st, hs, c, hc => by
    cases hres : issuePrescription c'.doctorReg c'.now c'.sender st c'.patient
        c'.contentHash c'.ipfsHash c'.expiryDate with
    | error e =>
      rw [issuedLog_cons_error hres] at hc
      rw [runIssues_cons, applyIssue_error hres]
      exact issuedLog_recorded cs st
        (fun x hx => hs x (List.mem_cons_of_mem _ hx)) c hc
    | ok out =>
      obtain ⟨st', r'⟩ := out
      obtain ⟨-, -, -, hout⟩ := issuePrescription_ok hres
      have hst' : st' = issueUpdate st c'.sender c'.patient c'.contentHash
          c'.ipfsHash c'.now c'.expiryDate := congrArg Prod.fst hout
      subst hst'
      rw [issuedLog_cons_ok hres] at hc
      rw [runIssues_cons, applyIssue_ok hres]
      rcases List.mem_cons.mp hc with rfl | hmem
      · have hrec : (issueUpdate st c.sender c.patient c.contentHash c.ipfsHash
            c.now c.expiryDate).prescriptions c.contentHash =
            { doctor := c.sender, patient := c.patient,
              contentHash := c.contentHash, ipfsHash := c.ipfsHash,
              issuedAt := c.now, expiryDate := c.expiryDate,
              fulfillments := [], hasFulfilled := [] } := by
          rw [issueUpdate_prescriptions, if_pos rfl]
        have hne : ((issueUpdate st c.sender c.patient c.contentHash c.ipfsHash
            c.now c.expiryDate).prescriptions c.contentHash).doctor ≠ 0 := by
          rw [hrec]
          exact hs c (List.mem_cons_self _ _)
        rw [runIssues_preserves_record cs _ c.contentHash hne, hrec]
        exact ⟨rfl, rfl⟩
      · exact issuedLog_recorded cs _
          (fun x hx => hs x (List.mem_cons_of_mem _ hx)) c hmem
  termination_by calls => calls.length

/-- A record exists in the final state of an issue trace exactly when
it existed initially or its id was successfully issued. -/
theorem runIssues_exists_iff :
    ∀ (calls : List IssueCall) (st : RegistryState),
      (∀ c ∈ calls, c.sender ≠ 0) →
      ∀ h, ((runIssues st calls).prescriptions h).doctor ≠ 0 ↔
        ((st.prescriptions h).doctor ≠ 0 ∨
          h ∈ (issuedLog st calls).map (fun c => c.contentHash))
  | [], st, _, h => by simp [runIssues, issuedLog]
  | c :: cs, st, hs, h => by
    cases hres : issuePrescription c.doctorReg c.now c.sender st c.patient
        c.contentHash c.ipfsHash c.expiryDate with
    | error e =>
      rw [runIssues_cons, applyIssue_error hres, issuedLog_cons_error hres]
      exact runIssues_exists_iff cs st
        (fun x hx => hs x (List.mem_cons_of_mem _ hx)) h
    | ok out =>
      obtain ⟨st', r'⟩ := out
      obtain ⟨-, -, -, hout⟩ := issuePrescription_ok hres
      have hst' : st' = issueUpdate st c.sender c.patient c.contentHash
          c.ipfsHash c.now c.expiryDate := congrArg Prod.fst hout
      subst hst'
      rw [runIssues_cons, applyIssue_ok hres, issuedLog_cons_ok hres,
        runIssues_exists_iff cs _
          (fun x hx => hs x (List.mem_cons_of_mem _ hx)) h]
      by_cases hf : h = c.contentHash
      · subst hf
        constructor
        · intro _
          right
          simp
        · intro _
          left
          rw [issueUpdate_prescriptions, if_pos rfl]
          exact hs c (List.mem_cons_self _ _)
      · rw [issueUpdate_prescriptions, if_neg hf]
        simp [hf]
  termination_by calls => calls.length

/-! ### C6: query-index consistency -/

/-- C6: starting from the empty ledger, after any trace of issue calls
(successful or reverted, with nonzero senders as on the EVM) the
patient index of `r` lists exactly the successfully issued ids whose
patient is `r`, in issuance order; symmetrically for the doctor index;
membership in the patient index coincides with "a record with that id
exists and names `r` as patient"; and a reverted issue call leaves the
state — in particular both indexes — unchanged. -/
theorem index_consistency (calls : List IssueCall)
    (hs : ∀ c ∈ calls, c.sender ≠ 0) (r d h : Nat) :
    getPatientPrescriptionIds (runIssues RegistryState.empty calls) r =
        ((issuedLog RegistryState.empty calls).filter
          (fun c => c.patient == r)).map (fun c => c.contentHash)
    ∧ getDoctorPrescriptionIds (runIssues RegistryState.empty calls) d =
        ((issuedLog RegistryState.empty calls).filter
          (fun c => c.sender == d)).map (fun c => c.contentHash)
    ∧ (h ∈ getPatientPrescriptionIds (runIssues RegistryState.empty calls) r ↔
        (((runIssues RegistryState.empty calls).prescriptions h).doctor ≠ 0 ∧
          ((runIssues RegistryState.empty calls).prescriptions h).patient = r))
    ∧ (∀ (c : IssueCall) (st : RegistryState) (e : RegistryError),
        issuePrescription c.doctorReg c.now c.sender st c.patient c.contentHash
          c.ipfsHash c.expiryDate = .error e → applyIssue st c = st) := by
  have hpat : getPatientPrescriptionIds (runIssues RegistryState.empty calls) r =
      ((issuedLog RegistryState.empty calls).filter
        (fun c => c.patient == r)).map (fun c => c.contentHash) := by
    have := runIssues_patient_index calls RegistryState.empty r
    simpa [getPatientPrescriptionIds, RegistryState.empty] using this
  have hdoc : getDoctorPrescriptionIds (runIssues RegistryState.empty calls) d =
      ((issuedLog RegistryState.empty calls).filter
        (fun c => c.sender == d)).map (fun c => c.contentHash) := by
    have := runIssues_doctor_index calls RegistryState.empty d
    simpa [getDoctorPrescriptionIds, RegistryState.empty] using this
  refine ⟨hpat, hdoc, ?_, fun c st e he => applyIssue_error he⟩
  rw [hpat]
  constructor
  · intro hmem
    obtain ⟨c, hcmem, hch⟩ := List.mem_map.mp hmem
    obtain ⟨hcin, hcr⟩ := List.mem_filter.mp hcmem
    have hcr' : c.patient = r := by simpa using hcr
    have hrec := issuedLog_recorded calls RegistryState.empty hs c hcin
    have hcs : c.sender ≠ 0 :=
      hs c (issuedLog_subset calls RegistryState.empty c hcin)
    rw [← hch]
    exact ⟨by rw [hrec.1]; exact hcs, by rw [hrec.2, hcr']⟩
  · rintro ⟨hdne, hpr⟩
    rcases (runIssues_exists_iff calls RegistryState.empty hs h).mp hdne with
      habs | hmem
    · exact absurd rfl habs
    · obtain ⟨c, hcin, hch⟩ := List.mem_map.mp hmem
      have hrec := issuedLog_recorded calls RegistryState.empty hs c hcin
      have hcp : c.patient = r := by
        rw [← hpr, ← hch]
        exact hrec.2.symm
      exact List.mem_map.mpr
        ⟨c, List.mem_filter.mpr ⟨hcin, by simpa using hcp⟩, hch⟩

/-- A concrete trace for the C6 witness: two successful issues by
doctor `1` (ids `7` to patient `4` and `11` to patient `9`) around one
reverted issue by the unregistered sender `5`. -/
def sampleCalls : List IssueCall :=
  [⟨sampleDoctorReg, 10, 1, 4, 7, "Qm1", 100⟩,
   ⟨sampleDoctorReg, 10, 5, 4, 8, "Qm2", 100⟩,
   ⟨sampleDoctorReg, 20, 1, 9, 11, "Qm3", 200⟩]

/-- Witness for C6 on the concrete trace `sampleCalls`. -/
theorem index_consistency_witness :
    getPatientPrescriptionIds (runIssues RegistryState.empty sampleCalls) 4 =
        ((issuedLog RegistryState.empty sampleCalls).filter
          (fun c => c.patient == 4)).map (fun c => c.contentHash)
    ∧ (7 ∈ getPatientPrescriptionIds (runIssues RegistryState.empty sampleCalls) 4 ↔
        (((runIssues RegistryState.empty sampleCalls).prescriptions 7).doctor ≠ 0 ∧
          ((runIssues RegistryState.empty sampleCalls).prescriptions 7).patient = 4)) :=
  ⟨(index_consistency sampleCalls (by decide) 4 1 7).1,
    (index_consistency sampleCalls (by decide) 4 1 7).2.2.1⟩

end DPVS
